import Mathlib

/-!
Shallow embedding of the backend `src/backend/app.py` (a Flask CRUD service
over two MongoDB collections with session-based admin authentication).

Modelling choices, all driven by the source:
- JSON values that the handlers actually inspect are either strings or
  `null`; `JVal` covers both.  A JSON object body is an association list
  with the keys of the Python dict (keys of a Python dict are unique).
- A stored document (`Doc`) is its generated ObjectId (kept in canonical
  lowercase 24-hex-digit string form) together with its fields.
- A collection models MongoDB `insert_one` / `update_one` / `delete_one`:
  insertion appends a document carrying a freshly generated identifier
  (`genOid` applied to a counter), update / delete act on the first
  document whose identifier matches.
- `ObjectId(s)` succeeds exactly on 24-hex-digit strings (raising
  `InvalidId` otherwise); `parseOid` returns the canonical lowercase form.
- The Flask session is modelled by the optional value of its `is_admin`
  entry; `session.get('is_admin') == True` is `check_admin_auth`.
- Telegram notification sending is a fire-and-forget side effect with no
  influence on responses or stored state, so it is absent from the model.
-/

/-- A JSON value as far as the handlers inspect it: `null` or a string. -/
inductive JVal where
  | null : JVal
  | str : String → JVal
deriving DecidableEq

/-- A JSON object / Python dict: an association list of key-value pairs. -/
abbrev JObj := List (String × JVal)

/-- Python `k in data`: does the object have the key? -/
def JObj.hasKey (d : JObj) (k : String) : Bool :=
  d.any (fun p => p.1 == k)

/-- Python `data.get(k)`: the value at the key, if any. -/
def JObj.get (d : JObj) (k : String) : Option JVal :=
  (d.find? (fun p => p.1 == k)).map (fun p => p.2)

/-- Python `data[k]` under a prior `k in data` check (total via a default). -/
def JObj.getV (d : JObj) (k : String) : JVal :=
  (d.get k).getD JVal.null

/-- Python `data[k] = v`: replace the value at the key, or append the pair. -/
def JObj.set (d : JObj) (k : String) (v : JVal) : JObj :=
  if d.hasKey k then d.map (fun p => if p.1 == k then (k, v) else p)
  else d ++ [(k, v)]

/-- A stored document: its ObjectId in canonical string form, plus fields. -/
structure Doc where
  oid : String
  fields : JObj
deriving DecidableEq

/-- A MongoDB collection together with the state of its id generator. -/
structure Collection where
  docs : List Doc
  nextId : Nat
deriving DecidableEq

/-- Hex digit character for a value below 16 (lowercase, as `str(ObjectId)`). -/
def hexChar (n : Nat) : Char :=
  if n < 10 then Char.ofNat (48 + n) else Char.ofNat (87 + n)

/-- The generated ObjectId for the n-th insertion, as its canonical
24-hex-digit lowercase string. -/
def genOid (n : Nat) : String :=
  String.mk ((List.range 24).map (fun i => hexChar (n / 16 ^ (23 - i) % 16)))

/-- Is the character a hexadecimal digit? -/
def isHexDigitChar (c : Char) : Bool :=
  (decide (48 ≤ c.toNat) && decide (c.toNat ≤ 57)) ||
  (decide (97 ≤ c.toNat) && decide (c.toNat ≤ 102)) ||
  (decide (65 ≤ c.toNat) && decide (c.toNat ≤ 70))

/-- Model of `bson.ObjectId(s)`: succeeds exactly on 24-hex-digit strings, yielding
the canonical lowercase form; otherwise raises `InvalidId` (here: `none`). -/
def parseOid (s : String) : Option String :=
  if s.length == 24 && s.data.all isHexDigitChar then
    some (String.mk (s.data.map Char.toLower))
  else none

/-- The Flask session, reduced to the optional value of its `is_admin` key. -/
abbrev Session := Option Bool

/-- From the source, `check_admin_auth`: `session.get('is_admin') == True`. -/
def check_admin_auth (s : Session) : Bool :=
  s == some true

/-- Model of `data.get('password')` as an optional string: absent and JSON `null`
both give Python `None`. -/
def passwordOf (body : JObj) : Option String :=
  match body.get "password" with
  | some (JVal.str s) => some s
  | _ => none

/-- From the source, `admin_login`: compare the supplied password with the
configured `ADMIN_PASSWORD` (either may be `None`); on match set the
session flag and return 200, otherwise 401 with the session unchanged. -/
def admin_login (adminPassword : Option String) (body : JObj) (sess : Session) :
    Nat × Session :=
  if passwordOf body == adminPassword then (200, some true)
  else (401, sess)

/-- From the source, `admin_logout`: `session.pop('is_admin', None)`. -/
def admin_logout (_sess : Session) : Nat × Session :=
  (200, (none : Session))

/-- From the source, `check_auth`: report `check_admin_auth` with 200. -/
def check_auth (sess : Session) : Nat × Bool :=
  (200, check_admin_auth sess)

/-- The base64 alphabet of RFC 4648, as used by `base64.b64encode`. -/
def b64Alphabet : List Char :=
  "ABCDEFGHIJKLMNOPQRSTUVWXYZabcdefghijklmnopqrstuvwxyz0123456789+/".data

/-- The base64 digit character for a value below 64. -/
def b64Char (n : Nat) : Char :=
  b64Alphabet.getD n 'A'

/-- Model of `base64.b64encode` on a byte list, producing the padded character list. -/
def b64encodeList : List Nat → List Char
  | [] => []
  | [a] => [b64Char (a / 4 % 64), b64Char (a % 4 * 16), '=', '=']
  | [a, b] =>
    [b64Char (a / 4 % 64), b64Char (a % 4 * 16 + b / 16 % 16),
     b64Char (b % 16 * 4), '=']
  | a :: b :: c :: rest =>
    b64Char (a / 4 % 64) :: b64Char (a % 4 * 16 + b / 16 % 16) ::
    b64Char (b % 16 * 4 + c / 64 % 4) :: b64Char (c % 64) :: b64encodeList rest

/-- The string `base64.b64encode(file_data).decode('utf-8')`. -/
def b64encode (bytes : List Nat) : String :=
  String.mk (b64encodeList bytes)

/-- Model of `file.filename.rsplit('.', 1)[1].lower() if '.' in file.filename else
'png'`: the lowercased suffix after the last dot, defaulting to png. -/
def fileExtension (filename : String) : String :=
  if filename.data.contains '.' then
    String.mk (((filename.data.reverse.takeWhile (fun c => c ≠ '.')).reverse).map
      Char.toLower)
  else "png"

/-- Result of the upload handler: HTTP status and optional data URL. -/
structure UploadResult where
  status : Nat
  imageUrl : Option String
deriving DecidableEq

/-- From the source, `upload_image`.  Here `file` is `request.files['image']`
when present, as its filename and raw bytes.  The sanitized-filename field
of the response (computed by werkzeug's library code) is not modelled. -/
def upload_image (sess : Session) (file : Option (String × List Nat)) :
    UploadResult :=
  if ¬ check_admin_auth sess then UploadResult.mk 401 none
  else
    match file with
    | none => UploadResult.mk 400 none
    | some (filename, bytes) =>
      if filename = "" then UploadResult.mk 400 none
      else
        UploadResult.mk 200
          (some ("data:image/" ++ fileExtension filename ++ ";base64," ++
            b64encode bytes))

/-- HTTP method of a request reaching the collection handlers. -/
inductive Method where
  | GET : Method
  | POST : Method
  | PUT : Method
  | DELETE : Method
deriving DecidableEq

/-- Result of a collection handler: status, optional list payload (GET),
optional created-document payload (POST), and the collection afterwards. -/
structure HResult where
  status : Nat
  listOut : Option (List JObj)
  docOut : Option JObj
  coll : Collection
deriving DecidableEq

/-- Serialization performed by the GET branches: `doc['_id'] = str(doc['_id'])`
on a document whose other fields pass through. -/
def serializeDoc (d : Doc) : JObj :=
  ("_id", JVal.str d.oid) :: d.fields

/-- Apply a set-update document to a stored document. -/
def applySet (d : Doc) (upd : JObj) : Doc :=
  upd.foldl (fun acc p => Doc.mk acc.oid (JObj.set acc.fields p.1 p.2)) d

/-- Model of `update_one` with an id filter and a set document: update the first document
with the matching id; return the new list and the matched count. -/
def updateFirst (docs : List Doc) (oid : String) (upd : JObj) :
    List Doc × Nat :=
  match docs with
  | [] => ([], 0)
  | d :: rest =>
    if d.oid == oid then (applySet d upd :: rest, 1)
    else
      let r := updateFirst rest oid upd
      (d :: r.1, r.2)

/-- Model of `delete_one` with an id filter: remove the first document with the matching
id; return the new list and the deleted count. -/
def deleteFirst (docs : List Doc) (oid : String) : List Doc × Nat :=
  match docs with
  | [] => ([], 0)
  | d :: rest =>
    if d.oid == oid then (rest, 1)
    else
      let r := deleteFirst rest oid
      (d :: r.1, r.2)

/-- The list `required_fields` of the scripts handler. -/
def requiredScriptFields : List String := ["title", "image", "key"]

/-- The set-update document built by the scripts PUT branch. -/
def scriptSetList (body : JObj) : JObj :=
  [("title", JObj.getV body "title"), ("image", JObj.getV body "image"),
   ("key", JObj.getV body "key")]

/-- From the source, `manage_scripts`: GET is public and lists all documents
with stringified ids; POST / PUT / DELETE require an admin session, then
validate required fields (POST / PUT), then the id format (PUT / DELETE),
then perform the store operation. -/
def manage_scripts (m : Method) (sess : Session) (script_id : Option String)
    (body : JObj) (c : Collection) : HResult :=
  if m = Method.GET then
    HResult.mk 200 (some (c.docs.map serializeDoc)) none c
  else if ¬ check_admin_auth sess then
    HResult.mk 401 none none c
  else if m = Method.POST then
    if ¬ (requiredScriptFields.all (fun f => JObj.hasKey body f)) then
      HResult.mk 400 none none c
    else
      HResult.mk 201 none
        (some (body ++ [("_id", JVal.str (genOid c.nextId))]))
        (Collection.mk (c.docs ++ [Doc.mk (genOid c.nextId) body])
          (c.nextId + 1))
  else
    match m, script_id with
    | Method.PUT, some sid =>
      if ¬ (requiredScriptFields.all (fun f => JObj.hasKey body f)) then
        HResult.mk 400 none none c
      else
        match parseOid sid with
        | none => HResult.mk 400 none none c
        | some oid =>
          let r := updateFirst c.docs oid (scriptSetList body)
          if r.2 = 0 then HResult.mk 404 none none (Collection.mk r.1 c.nextId)
          else HResult.mk 200 none none (Collection.mk r.1 c.nextId)
    | Method.DELETE, some sid =>
      match parseOid sid with
      | none => HResult.mk 400 none none c
      | some oid =>
        let r := deleteFirst c.docs oid
        if r.2 = 1 then HResult.mk 200 none none (Collection.mk r.1 c.nextId)
        else HResult.mk 404 none none (Collection.mk r.1 c.nextId)
    | _, _ => HResult.mk 405 none none c

/-- The list `required_fields` of the accounts handler. -/
def requiredAccountFields : List String := ["name", "image", "username", "password"]

/-- The account document actually inserted by the accounts POST branch:
the body, with the default accent color appended when absent. -/
def accountInsertData (body : JObj) : JObj :=
  if ¬ JObj.hasKey body "accentColor" then
    body ++ [("accentColor", JVal.str "#0ea5e9")]
  else body

/-- The set-update document built by the accounts PUT branch: the four required
fields, plus the accent color exactly when the body carries one. -/
def accountSetList (body : JObj) : JObj :=
  [("name", JObj.getV body "name"), ("image", JObj.getV body "image"),
   ("username", JObj.getV body "username"), ("password", JObj.getV body "password")] ++
  (if JObj.hasKey body "accentColor" then
    [("accentColor", JObj.getV body "accentColor")]
  else [])

/-- From the source, `manage_accounts`: like `manage_scripts`, except that
GET also requires an admin session, the required fields differ, and the
accent color is defaulted on creation and optional on update. -/
def manage_accounts (m : Method) (sess : Session) (account_id : Option String)
    (body : JObj) (c : Collection) : HResult :=
  if m = Method.GET then
    if ¬ check_admin_auth sess then HResult.mk 401 none none c
    else HResult.mk 200 (some (c.docs.map serializeDoc)) none c
  else if ¬ check_admin_auth sess then
    HResult.mk 401 none none c
  else if m = Method.POST then
    if ¬ (requiredAccountFields.all (fun f => JObj.hasKey body f)) then
      HResult.mk 400 none none c
    else
      HResult.mk 201 none
        (some (accountInsertData body ++ [("_id", JVal.str (genOid c.nextId))]))
        (Collection.mk (c.docs ++ [Doc.mk (genOid c.nextId) (accountInsertData body)])
          (c.nextId + 1))
  else
    match m, account_id with
    | Method.PUT, some aid =>
      if ¬ (requiredAccountFields.all (fun f => JObj.hasKey body f)) then
        HResult.mk 400 none none c
      else
        match parseOid aid with
        | none => HResult.mk 400 none none c
        | some oid =>
          let r := updateFirst c.docs oid (accountSetList body)
          if r.2 = 0 then HResult.mk 404 none none (Collection.mk r.1 c.nextId)
          else HResult.mk 200 none none (Collection.mk r.1 c.nextId)
    | Method.DELETE, some aid =>
      match parseOid aid with
      | none => HResult.mk 400 none none c
      | some oid =>
        let r := deleteFirst c.docs oid
        if r.2 = 1 then HResult.mk 200 none none (Collection.mk r.1 c.nextId)
        else HResult.mk 404 none none (Collection.mk r.1 c.nextId)
    | _, _ => HResult.mk 405 none none c

/-! ### Helper lemmas about the data model -/

/-- Key presence is exactly definedness of lookup. -/
theorem JObj.hasKey_eq_isSome (d : JObj) (k : String) :
    JObj.hasKey d k = (JObj.get d k).isSome := by
  induction d with
  | nil => rfl
  | cons p rest ih =>
    simp only [JObj.hasKey, JObj.get, List.any_cons, List.find?_cons] at *
    cases h : (p.1 == k) with
    | true => simp
    | false => simp [ih]

/-- Lookup distributes over append, preferring the left object. -/
theorem JObj.get_append (d1 d2 : JObj) (k : String) :
    JObj.get (d1 ++ d2) k = (JObj.get d1 k).or (JObj.get d2 k) := by
  induction d1 with
  | nil => simp [JObj.get]
  | cons p rest ih =>
    simp only [JObj.get, List.cons_append, List.find?_cons] at *
    cases h : (p.1 == k) with
    | true => simp
    | false => simpa using ih

/-- Finding the assigned key after the in-place branch of an assignment. -/
theorem find?_map_set_self (l : List (String × JVal)) (k : String) (v : JVal)
    (h : l.any (fun p => p.1 == k) = true) :
    (l.map (fun p => if p.1 == k then (k, v) else p)).find?
      (fun p => p.1 == k) = some (k, v) := by
  induction l with
  | nil => simp at h
  | cons p rest ih =>
    rw [List.map_cons]
    by_cases hp : p.1 = k
    · have hfp : (if (p.1 == k) = true then (k, v) else p) = (k, v) := by
        simp [hp]
      rw [hfp, List.find?_cons_of_pos _ (by simp)]
    · have hfp : (if (p.1 == k) = true then (k, v) else p) = p := by
        simp [hp]
      have h' : rest.any (fun p => p.1 == k) = true := by
        simpa [hp] using h
      rw [hfp, List.find?_cons_of_neg _ (by simp [hp])]
      exact ih h'

/-- Finding a different key commutes with the in-place branch of an
assignment. -/
theorem find?_map_set_ne (l : List (String × JVal)) (k k' : String) (v : JVal)
    (h : k' ≠ k) :
    (l.map (fun p => if p.1 == k then (k, v) else p)).find?
      (fun p => p.1 == k') = l.find? (fun p => p.1 == k') := by
  have hkk : ¬ (k = k') := fun e => h e.symm
  induction l with
  | nil => rfl
  | cons p rest ih =>
    rw [List.map_cons]
    by_cases hp : p.1 = k
    · have hfp : (if (p.1 == k) = true then (k, v) else p) = (k, v) := by
        simp [hp]
      have h2 : ¬ (p.1 = k') := by
        rw [hp]
        exact hkk
      rw [hfp, List.find?_cons_of_neg _ (by simp only [beq_iff_eq]; exact hkk),
        List.find?_cons_of_neg _ (by simp only [beq_iff_eq]; exact h2)]
      exact ih
    · have hfp : (if (p.1 == k) = true then (k, v) else p) = p := by
        simp [hp]
      rw [hfp]
      by_cases hq : p.1 = k'
      · rw [List.find?_cons_of_pos _ (by simp only [beq_iff_eq]; exact hq),
          List.find?_cons_of_pos _ (by simp only [beq_iff_eq]; exact hq)]
      · rw [List.find?_cons_of_neg _ (by simp only [beq_iff_eq]; exact hq),
          List.find?_cons_of_neg _ (by simp only [beq_iff_eq]; exact hq)]
        exact ih

/-- Assignment writes the key. -/
theorem JObj.get_set_self (d : JObj) (k : String) (v : JVal) :
    JObj.get (JObj.set d k v) k = some v := by
  unfold JObj.set
  cases h : JObj.hasKey d k with
  | true =>
    rw [if_pos rfl]
    unfold JObj.get
    rw [find?_map_set_self d k v h]
    rfl
  | false =>
    have hn : JObj.get d k = none := by
      have hs := JObj.hasKey_eq_isSome d k
      rw [h] at hs
      exact Option.not_isSome_iff_eq_none.mp (by rw [← hs]; exact Bool.false_ne_true)
    rw [if_neg Bool.false_ne_true]
    rw [JObj.get_append, hn]
    unfold JObj.get
    rw [List.find?_cons_of_pos _ (by simp)]
    rfl

/-- Assignment leaves every other key unchanged. -/
theorem JObj.get_set_ne (d : JObj) (k k' : String) (v : JVal) (h : k' ≠ k) :
    JObj.get (JObj.set d k v) k' = JObj.get d k' := by
  have hkk : ¬ (k = k') := fun e => h e.symm
  unfold JObj.set
  cases hk : JObj.hasKey d k with
  | true =>
    rw [if_pos rfl]
    unfold JObj.get
    rw [find?_map_set_ne d k k' v h]
  | false =>
    rw [if_neg Bool.false_ne_true]
    rw [JObj.get_append]
    have h1 : JObj.get [(k, v)] k' = none := by
      unfold JObj.get
      rw [List.find?_cons_of_neg _ (by simp only [beq_iff_eq]; exact hkk)]
      rfl
    rw [h1, Option.or_none]

/-- Assignment makes the key present. -/
theorem JObj.hasKey_set_self (d : JObj) (k : String) (v : JVal) :
    JObj.hasKey (JObj.set d k v) k = true := by
  rw [JObj.hasKey_eq_isSome, JObj.get_set_self]
  rfl

/-- Assignment does not change presence of other keys. -/
theorem JObj.hasKey_set_ne (d : JObj) (k k' : String) (v : JVal) (h : k' ≠ k) :
    JObj.hasKey (JObj.set d k v) k' = JObj.hasKey d k' := by
  rw [JObj.hasKey_eq_isSome, JObj.get_set_ne d k k' v h, JObj.hasKey_eq_isSome]

/-- An update whose id matches no document is a no-op reporting no match. -/
theorem updateFirst_of_not_mem (docs : List Doc) (oid : String) (upd : JObj)
    (h : oid ∉ docs.map Doc.oid) : updateFirst docs oid upd = (docs, 0) := by
  induction docs with
  | nil => rfl
  | cons d rest ih =>
    have h1 : ¬ (oid = d.oid) := by
      intro e
      exact h (by simp [e])
    have h2 : oid ∉ rest.map Doc.oid := by
      intro m
      exact h (by simp [m])
    have hb : (d.oid == oid) = false := by
      simp only [beq_eq_false_iff_ne]
      exact fun e => h1 e.symm
    simp [updateFirst, hb, ih h2]

/-- An update that reports no match leaves the document list unchanged. -/
theorem updateFirst_fst_of_snd_zero (docs : List Doc) (oid : String) (upd : JObj)
    (h : (updateFirst docs oid upd).2 = 0) :
    (updateFirst docs oid upd).1 = docs := by
  induction docs with
  | nil => rfl
  | cons d rest ih =>
    cases hb : (d.oid == oid) with
    | true =>
      rw [updateFirst, if_pos (by rw [hb])] at h
      simp at h
    | false =>
      rw [updateFirst, if_neg (by rw [hb]; exact Bool.false_ne_true)] at h ⊢
      simp only at h ⊢
      rw [ih h]

/-- An update on a list split around the first matching document rewrites
exactly that document. -/
theorem updateFirst_decomp (pre : List Doc) (d : Doc) (post : List Doc)
    (oid : String) (upd : JObj)
    (hpre : ∀ d' ∈ pre, d'.oid ≠ oid) (hd : d.oid = oid) :
    updateFirst (pre ++ d :: post) oid upd = (pre ++ applySet d upd :: post, 1) := by
  induction pre with
  | nil =>
    simp only [List.nil_append]
    rw [updateFirst, if_pos (by simp [hd])]
  | cons p rest ih =>
    have h1 : (p.oid == oid) = false := by
      simp only [beq_eq_false_iff_ne]
      exact hpre p (by simp)
    have h2 : ∀ d' ∈ rest, d'.oid ≠ oid := fun d' m => hpre d' (by simp [m])
    simp only [List.cons_append]
    rw [updateFirst, if_neg (by rw [h1]; exact Bool.false_ne_true)]
    simp only [ih h2]

/-- Membership in the result of an update: every document either survives
unchanged or is the rewritten form of a previous document. -/
theorem mem_updateFirst (docs : List Doc) (oid : String) (upd : JObj) :
    ∀ e ∈ (updateFirst docs oid upd).1,
      e ∈ docs ∨ ∃ d ∈ docs, e = applySet d upd := by
  induction docs with
  | nil => simp [updateFirst]
  | cons d rest ih =>
    intro e he
    cases hb : (d.oid == oid) with
    | true =>
      rw [updateFirst, if_pos (by rw [hb])] at he
      simp only [List.mem_cons] at he
      cases he with
      | inl h => exact Or.inr ⟨d, by simp, h⟩
      | inr h => exact Or.inl (by simp [h])
    | false =>
      rw [updateFirst, if_neg (by rw [hb]; exact Bool.false_ne_true)] at he
      simp only [List.mem_cons] at he
      cases he with
      | inl h => exact Or.inl (by simp [h])
      | inr h =>
        cases ih e h with
        | inl hm => exact Or.inl (by simp [hm])
        | inr hm =>
          obtain ⟨d', hd', he'⟩ := hm
          exact Or.inr ⟨d', by simp [hd'], he'⟩

/-- A delete whose id matches no document is a no-op reporting no deletion. -/
theorem deleteFirst_of_not_mem (docs : List Doc) (oid : String)
    (h : oid ∉ docs.map Doc.oid) : deleteFirst docs oid = (docs, 0) := by
  induction docs with
  | nil => rfl
  | cons d rest ih =>
    have h1 : ¬ (oid = d.oid) := by
      intro e
      exact h (by simp [e])
    have h2 : oid ∉ rest.map Doc.oid := by
      intro m
      exact h (by simp [m])
    have hb : (d.oid == oid) = false := by
      simp only [beq_eq_false_iff_ne]
      exact fun e => h1 e.symm
    simp [deleteFirst, hb, ih h2]

/-- When the stored ids are distinct and a delete succeeded, the deleted id
no longer occurs among the stored ids. -/
theorem deleteFirst_removes (docs : List Doc) (oid : String)
    (hnd : (docs.map Doc.oid).Nodup) (h : (deleteFirst docs oid).2 = 1) :
    oid ∉ (deleteFirst docs oid).1.map Doc.oid := by
  induction docs with
  | nil => simp [deleteFirst] at h
  | cons d rest ih =>
    rw [List.map_cons, List.nodup_cons] at hnd
    cases hb : (d.oid == oid) with
    | true =>
      have he : d.oid = oid := by simpa using hb
      rw [deleteFirst, if_pos (by rw [hb])]
      rw [← he]
      exact hnd.1
    | false =>
      rw [deleteFirst, if_neg (by rw [hb]; exact Bool.false_ne_true)] at h ⊢
      simp only at h ⊢
      rw [List.map_cons]
      intro hm
      cases List.mem_cons.mp hm with
      | inl he => exact (by simpa using hb : ¬ d.oid = oid) he.symm
      | inr he => exact ih hnd.2 h he

/-- The generated identifier string has length 24. -/
theorem genOid_length (n : Nat) : (genOid n).length = 24 := by
  simp [genOid, String.length]

/-- The generated identifier string is non-empty. -/
theorem genOid_ne_empty (n : Nat) : genOid n ≠ "" := by
  intro h
  have h24 := genOid_length n
  rw [h] at h24
  simp [String.length] at h24

/-! ### Claim theorems -/

/-- C3: without an authenticated admin session, every mutating scripts or
accounts operation and the accounts read return 401 with the store
unchanged and no payload (independently of body, id and store contents,
so no field validation or store write happens), while the scripts read
succeeds with the full serialized catalog without consulting the session. -/
theorem C3_unauthenticated (sess : Session) (sid : Option String) (body : JObj)
    (c ca : Collection) (h : check_admin_auth sess = false) :
    manage_scripts Method.POST sess sid body c = HResult.mk 401 none none c ∧
    manage_scripts Method.PUT sess sid body c = HResult.mk 401 none none c ∧
    manage_scripts Method.DELETE sess sid body c = HResult.mk 401 none none c ∧
    manage_accounts Method.POST sess sid body ca = HResult.mk 401 none none ca ∧
    manage_accounts Method.PUT sess sid body ca = HResult.mk 401 none none ca ∧
    manage_accounts Method.DELETE sess sid body ca = HResult.mk 401 none none ca ∧
    manage_accounts Method.GET sess sid body ca = HResult.mk 401 none none ca ∧
    manage_scripts Method.GET sess sid body c =
      HResult.mk 200 (some (c.docs.map serializeDoc)) none c := by
  simp [manage_scripts, manage_accounts, h]

/-- Witness for C3 at a concrete unauthenticated session and empty store. -/
theorem C3_unauthenticated_witness :
    manage_scripts Method.POST none none [] (Collection.mk [] 0) =
      HResult.mk 401 none none (Collection.mk [] 0) ∧
    manage_accounts Method.GET none none [] (Collection.mk [] 0) =
      HResult.mk 401 none none (Collection.mk [] 0) ∧
    (manage_scripts Method.GET none none [] (Collection.mk [] 0)).status = 200 := by
  have h := C3_unauthenticated none none [] (Collection.mk [] 0)
    (Collection.mk [] 0) (by decide)
  exact ⟨h.1, h.2.2.2.2.2.2.1, by rw [h.2.2.2.2.2.2.2]⟩

/-- C5: an authenticated script creation whose body lacks a required field
returns 400 and persists nothing. -/
theorem C5_create_missing_field (sess : Session) (body : JObj) (c : Collection)
    (hauth : check_admin_auth sess = true)
    (hmiss : requiredScriptFields.all (fun f => JObj.hasKey body f) = false) :
    manage_scripts Method.POST sess none body c = HResult.mk 400 none none c := by
  simp [manage_scripts, hauth, hmiss]

/-- Witness for C5: a body missing the key field is rejected. -/
theorem C5_create_missing_field_witness :
    manage_scripts Method.POST (some true) none
      [("title", JVal.str "t"), ("image", JVal.str "i")] (Collection.mk [] 0) =
      HResult.mk 400 none none (Collection.mk [] 0) :=
  C5_create_missing_field (some true)
    [("title", JVal.str "t"), ("image", JVal.str "i")] (Collection.mk [] 0)
    (by decide) (by decide)

/-- C10: with the admin password unset in the environment, a login whose
body omits the password succeeds and sets the admin flag. -/
theorem C10_login_unset_password (body : JObj) (sess : Session)
    (h : JObj.hasKey body "password" = false) :
    admin_login none body sess = (200, some true) := by
  have hn : JObj.get body "password" = none := by
    have hs := JObj.hasKey_eq_isSome body "password"
    rw [h] at hs
    exact Option.not_isSome_iff_eq_none.mp (by rw [← hs]; exact Bool.false_ne_true)
  unfold admin_login passwordOf
  rw [hn]
  rfl

/-- Witness for C10 at the empty body and fresh session. -/
theorem C10_login_unset_password_witness :
    admin_login none [] none = (200, some true) :=
  C10_login_unset_password [] none (by decide)

/-- C6 counterexample: on a session that is already authenticated, a login
with a wrong password returns 401 and leaves the session unchanged, but the
subsequent auth check still reports true, not false as the claim demands
for every session. -/
theorem C6_counterexample :
    (admin_login (some "secret") [("password", JVal.str "wrong")] (some true)).1
      = 401 ∧
    (check_auth (admin_login (some "secret") [("password", JVal.str "wrong")]
      (some true)).2).2 = true := by
  constructor
  · rfl
  · rfl

/-- C6 amended: a login with a non-matching password returns 401 and leaves
the session state unchanged, so when the session was not already
authenticated the subsequent auth check reports false; a matching password
returns 200 and sets the flag. -/
theorem C6_login_amended (adminPassword : Option String) (body : JObj)
    (sess : Session) :
    (passwordOf body ≠ adminPassword →
      (admin_login adminPassword body sess).1 = 401 ∧
      (admin_login adminPassword body sess).2 = sess ∧
      (check_admin_auth sess = false →
        (check_auth (admin_login adminPassword body sess).2).2 = false)) ∧
    (passwordOf body = adminPassword →
      admin_login adminPassword body sess = (200, some true)) := by
  constructor
  · intro hne
    have hb : (passwordOf body == adminPassword) = false := by
      simp only [beq_eq_false_iff_ne]
      exact hne
    unfold admin_login
    rw [if_neg (by rw [hb]; exact Bool.false_ne_true)]
    refine ⟨rfl, rfl, ?_⟩
    intro hf
    simpa [check_auth] using hf
  · intro he
    unfold admin_login
    rw [if_pos (by simp [he])]

/-- Witness for the amended C6 on a fresh session: wrong password gives 401
and the auth check still reports false; right password gives 200. -/
theorem C6_login_amended_witness :
    (admin_login (some "pw") [("password", JVal.str "no")] none).1 = 401 ∧
    (check_auth (admin_login (some "pw") [("password", JVal.str "no")] none).2).2
      = false ∧
    admin_login (some "pw") [("password", JVal.str "pw")] none = (200, some true) := by
  have h1 := (C6_login_amended (some "pw") [("password", JVal.str "no")] none).1
    (by decide)
  have h2 := (C6_login_amended (some "pw") [("password", JVal.str "pw")] none).2
    (by decide)
  exact ⟨h1.1, h1.2.2 (by decide), h2⟩

/-- The scripts set-update, spelled out as three assignments. -/
theorem applySet_script_eq (d : Doc) (body : JObj) :
    applySet d (scriptSetList body) = Doc.mk d.oid
      (JObj.set (JObj.set (JObj.set d.fields "title" (JObj.getV body "title"))
        "image" (JObj.getV body "image")) "key" (JObj.getV body "key")) := rfl

/-- The scripts set-update leaves all three required keys present. -/
theorem applySet_script_hasKeys (d : Doc) (body : JObj) :
    JObj.hasKey (applySet d (scriptSetList body)).fields "title" = true ∧
    JObj.hasKey (applySet d (scriptSetList body)).fields "image" = true ∧
    JObj.hasKey (applySet d (scriptSetList body)).fields "key" = true := by
  rw [applySet_script_eq]
  refine ⟨?_, ?_, ?_⟩
  · rw [JObj.hasKey_set_ne _ _ _ _ (by decide), JObj.hasKey_set_ne _ _ _ _ (by decide),
      JObj.hasKey_set_self]
  · rw [JObj.hasKey_set_ne _ _ _ _ (by decide), JObj.hasKey_set_self]
  · rw [JObj.hasKey_set_self]

/-- Values after the scripts set-update: the three required keys carry the
submitted values, every other key is untouched. -/
theorem applySet_script_gets (d : Doc) (body : JObj) :
    JObj.get (applySet d (scriptSetList body)).fields "title" =
      some (JObj.getV body "title") ∧
    JObj.get (applySet d (scriptSetList body)).fields "image" =
      some (JObj.getV body "image") ∧
    JObj.get (applySet d (scriptSetList body)).fields "key" =
      some (JObj.getV body "key") ∧
    ∀ k, k ≠ "title" → k ≠ "image" → k ≠ "key" →
      JObj.get (applySet d (scriptSetList body)).fields k =
        JObj.get d.fields k := by
  rw [applySet_script_eq]
  refine ⟨?_, ?_, ?_, ?_⟩
  · rw [JObj.get_set_ne _ _ _ _ (by decide), JObj.get_set_ne _ _ _ _ (by decide),
      JObj.get_set_self]
  · rw [JObj.get_set_ne _ _ _ _ (by decide), JObj.get_set_self]
  · rw [JObj.get_set_self]
  · intro k h1 h2 h3
    rw [JObj.get_set_ne _ _ _ _ h3, JObj.get_set_ne _ _ _ _ h2,
      JObj.get_set_ne _ _ _ _ h1]

/-- C1: an authenticated script creation with the three required fields
present returns 201, and the subsequent public catalog read lists a record
whose title, image and key equal the submitted values and whose id is the
non-empty canonical string of the generated identifier. -/
theorem C1_create_then_list (sess sess2 : Session) (sid2 : Option String)
    (body body2 : JObj) (c : Collection)
    (hauth : check_admin_auth sess = true)
    (hflds : requiredScriptFields.all (fun f => JObj.hasKey body f) = true) :
    (manage_scripts Method.POST sess none body c).status = 201 ∧
    ∃ l, (manage_scripts Method.GET sess2 sid2 body2
        (manage_scripts Method.POST sess none body c).coll).listOut = some l ∧
      ∃ rec ∈ l,
        JObj.get rec "title" = JObj.get body "title" ∧
        JObj.get rec "image" = JObj.get body "image" ∧
        JObj.get rec "key" = JObj.get body "key" ∧
        JObj.get rec "_id" = some (JVal.str (genOid c.nextId)) ∧
        genOid c.nextId ≠ "" := by
  have hPOST : manage_scripts Method.POST sess none body c =
      HResult.mk 201 none (some (body ++ [("_id", JVal.str (genOid c.nextId))]))
        (Collection.mk (c.docs ++ [Doc.mk (genOid c.nextId) body]) (c.nextId + 1)) := by
    simp [manage_scripts, hauth, hflds]
  refine ⟨by rw [hPOST], ?_⟩
  rw [hPOST]
  refine ⟨(c.docs ++ [Doc.mk (genOid c.nextId) body]).map serializeDoc,
    by simp [manage_scripts], ?_⟩
  refine ⟨serializeDoc (Doc.mk (genOid c.nextId) body),
    List.mem_map_of_mem _ (by simp), ?_, ?_, ?_, ?_, ?_⟩
  · unfold serializeDoc JObj.get
    rw [List.find?_cons_of_neg _ (by simp)]
  · unfold serializeDoc JObj.get
    rw [List.find?_cons_of_neg _ (by simp)]
  · unfold serializeDoc JObj.get
    rw [List.find?_cons_of_neg _ (by simp)]
  · unfold serializeDoc JObj.get
    rw [List.find?_cons_of_pos _ (by simp)]
    rfl
  · exact genOid_ne_empty _

/-- Witness for C1 on a fresh store: creation succeeds and the listed
record carries the generated non-empty id. -/
theorem C1_create_then_list_witness :
    (manage_scripts Method.POST (some true) none
        [("title", JVal.str "t"), ("image", JVal.str "i"), ("key", JVal.str "k")]
        (Collection.mk [] 0)).status = 201 ∧
    ∃ l, (manage_scripts Method.GET none none []
        (manage_scripts Method.POST (some true) none
          [("title", JVal.str "t"), ("image", JVal.str "i"), ("key", JVal.str "k")]
          (Collection.mk [] 0)).coll).listOut = some l ∧
      ∃ rec ∈ l, JObj.get rec "_id" = some (JVal.str (genOid 0)) ∧
        genOid 0 ≠ "" := by
  have h := C1_create_then_list (some true) none none
    [("title", JVal.str "t"), ("image", JVal.str "i"), ("key", JVal.str "k")] []
    (Collection.mk [] 0) (by decide) (by decide)
  obtain ⟨h1, l, hl, rec, hm, _, _, _, hid, hne⟩ := h
  exact ⟨h1, l, hl, rec, hm, hid, hne⟩

/-- C2 counterexample: a creation whose title is JSON null passes the
presence-only validation, so the accepted request stores a script document
whose title value is null, falsifying the non-null claim. -/
theorem C2_counterexample :
    (manage_scripts Method.POST (some true) none
      [("title", JVal.null), ("image", JVal.str "i"), ("key", JVal.str "k")]
      (Collection.mk [] 0)).status = 201 ∧
    ∃ d ∈ (manage_scripts Method.POST (some true) none
      [("title", JVal.null), ("image", JVal.str "i"), ("key", JVal.str "k")]
      (Collection.mk [] 0)).coll.docs,
      JObj.get d.fields "title" = some JVal.null := by
  refine ⟨rfl, Doc.mk (genOid 0)
    [("title", JVal.null), ("image", JVal.str "i"), ("key", JVal.str "k")],
    ?_, rfl⟩
  decide

/-- A matched update splits the list at the first document with the id:
that document is rewritten in place and everything else is untouched. -/
theorem updateFirst_matched_decomp (docs : List Doc) (oid : String) (upd : JObj)
    (h : ¬ (updateFirst docs oid upd).2 = 0) :
    ∃ pre d post, docs = pre ++ d :: post ∧ d.oid = oid ∧
      (updateFirst docs oid upd).1 = pre ++ applySet d upd :: post := by
  induction docs with
  | nil => simp [updateFirst] at h
  | cons e rest ih =>
    cases hb : (e.oid == oid) with
    | true =>
      refine ⟨[], e, rest, rfl, by simpa using hb, ?_⟩
      rw [updateFirst, if_pos (by rw [hb])]
      rfl
    | false =>
      rw [updateFirst, if_neg (by rw [hb]; exact Bool.false_ne_true)] at h ⊢
      simp only at h ⊢
      obtain ⟨pre, d, post, hdocs, hoid, hres⟩ := ih h
      refine ⟨e :: pre, d, post, by rw [hdocs]; rfl, hoid, ?_⟩
      rw [hres]
      rfl

/-- C2 amended: every accepted script creation or update stores a document
that carries the title, image and key fields with the submitted values
(which may be JSON null); all other documents are untouched. -/
theorem C2_stored_scripts_carry_submitted_values (sess : Session) (sid : String)
    (body : JObj) (c : Collection) :
    ((manage_scripts Method.POST sess none body c).status = 201 →
      ∃ stored, (manage_scripts Method.POST sess none body c).coll.docs =
          c.docs ++ [stored] ∧
        JObj.hasKey stored.fields "title" = true ∧
        JObj.hasKey stored.fields "image" = true ∧
        JObj.hasKey stored.fields "key" = true ∧
        JObj.get stored.fields "title" = JObj.get body "title" ∧
        JObj.get stored.fields "image" = JObj.get body "image" ∧
        JObj.get stored.fields "key" = JObj.get body "key") ∧
    ((manage_scripts Method.PUT sess (some sid) body c).status = 200 →
      ∃ pre d post stored, c.docs = pre ++ d :: post ∧
        (manage_scripts Method.PUT sess (some sid) body c).coll.docs =
          pre ++ stored :: post ∧
        JObj.hasKey stored.fields "title" = true ∧
        JObj.hasKey stored.fields "image" = true ∧
        JObj.hasKey stored.fields "key" = true ∧
        JObj.get stored.fields "title" = some (JObj.getV body "title") ∧
        JObj.get stored.fields "image" = some (JObj.getV body "image") ∧
        JObj.get stored.fields "key" = some (JObj.getV body "key")) := by
  constructor
  · intro h201
    cases hauth : check_admin_auth sess with
    | false => simp [manage_scripts, hauth] at h201
    | true =>
      cases hflds : requiredScriptFields.all (fun f => JObj.hasKey body f) with
      | false => simp [manage_scripts, hauth, hflds] at h201
      | true =>
        have hPOST : manage_scripts Method.POST sess none body c =
            HResult.mk 201 none
              (some (body ++ [("_id", JVal.str (genOid c.nextId))]))
              (Collection.mk (c.docs ++ [Doc.mk (genOid c.nextId) body])
                (c.nextId + 1)) := by
          simp [manage_scripts, hauth, hflds]
        refine ⟨Doc.mk (genOid c.nextId) body, by rw [hPOST], ?_⟩
        have hk := (by simpa [requiredScriptFields] using hflds :
          JObj.hasKey body "title" = true ∧ JObj.hasKey body "image" = true ∧
            JObj.hasKey body "key" = true)
        exact ⟨hk.1, hk.2.1, hk.2.2, rfl, rfl, rfl⟩
  · intro h200
    cases hauth : check_admin_auth sess with
    | false => simp [manage_scripts, hauth] at h200
    | true =>
      cases hflds : requiredScriptFields.all (fun f => JObj.hasKey body f) with
      | false => simp [manage_scripts, hauth, hflds] at h200
      | true =>
        cases hp : parseOid sid with
        | none => simp [manage_scripts, hauth, hflds, hp] at h200
        | some oid =>
          by_cases hz : (updateFirst c.docs oid (scriptSetList body)).2 = 0
          · simp [manage_scripts, hauth, hflds, hp, hz] at h200
          · have hco : (manage_scripts Method.PUT sess (some sid) body c).coll.docs =
                (updateFirst c.docs oid (scriptSetList body)).1 := by
              simp [manage_scripts, hauth, hflds, hp, hz]
            obtain ⟨pre, d, post, hdocs, hoid, hres⟩ :=
              updateFirst_matched_decomp c.docs oid (scriptSetList body) hz
            obtain ⟨hkt, hki, hkk⟩ := applySet_script_hasKeys d body
            obtain ⟨hgt, hgi, hgk, -⟩ := applySet_script_gets d body
            exact ⟨pre, d, post, applySet d (scriptSetList body), hdocs,
              by rw [hco, hres], hkt, hki, hkk, hgt, hgi, hgk⟩

/-- Witness for the amended C2: a concrete accepted creation with a null
title stores exactly one new document whose three fields read back the
submitted values. -/
theorem C2_stored_scripts_carry_submitted_values_witness :
    ∃ stored, (manage_scripts Method.POST (some true) none
        [("title", JVal.null), ("image", JVal.str "i"), ("key", JVal.str "k")]
        (Collection.mk [] 0)).coll.docs = [] ++ [stored] ∧
      JObj.get stored.fields "title" =
        JObj.get [("title", JVal.null), ("image", JVal.str "i"),
          ("key", JVal.str "k")] "title" ∧
      JObj.get stored.fields "key" =
        JObj.get [("title", JVal.null), ("image", JVal.str "i"),
          ("key", JVal.str "k")] "key" := by
  have h := (C2_stored_scripts_carry_submitted_values (some true) "x"
    [("title", JVal.null), ("image", JVal.str "i"), ("key", JVal.str "k")]
    (Collection.mk [] 0)).1 (by decide)
  obtain ⟨stored, hdocs, -, -, -, ht, -, hk⟩ := h
  exact ⟨stored, hdocs, ht, hk⟩

/-- C4: for authenticated script updates and deletes with required fields
present, a malformed id yields 400 with the store unchanged; a well-formed
id matching no stored document yields 404 with the store unchanged; and
after a successful delete, deleting the same id again yields 404. -/
theorem C4_id_validation (sess : Session) (sid : String) (body : JObj)
    (c : Collection) (hauth : check_admin_auth sess = true)
    (hflds : requiredScriptFields.all (fun f => JObj.hasKey body f) = true)
    (hnd : (c.docs.map Doc.oid).Nodup) :
    (parseOid sid = none →
      manage_scripts Method.PUT sess (some sid) body c =
        HResult.mk 400 none none c ∧
      manage_scripts Method.DELETE sess (some sid) body c =
        HResult.mk 400 none none c) ∧
    (∀ oid, parseOid sid = some oid → oid ∉ c.docs.map Doc.oid →
      manage_scripts Method.PUT sess (some sid) body c =
        HResult.mk 404 none none c ∧
      manage_scripts Method.DELETE sess (some sid) body c =
        HResult.mk 404 none none c) ∧
    ((manage_scripts Method.DELETE sess (some sid) body c).status = 200 →
      (manage_scripts Method.DELETE sess (some sid) body
        (manage_scripts Method.DELETE sess (some sid) body c).coll).status = 404) := by
  obtain ⟨docs, nid⟩ := c
  refine ⟨?_, ?_, ?_⟩
  · intro hp
    constructor
    · simp [manage_scripts, hauth, hflds, hp]
    · simp [manage_scripts, hauth, hp]
  · intro oid hp hmem
    simp only at hmem
    have hu := updateFirst_of_not_mem docs oid (scriptSetList body) hmem
    have hdel := deleteFirst_of_not_mem docs oid hmem
    constructor
    · simp [manage_scripts, hauth, hflds, hp, hu]
    · simp [manage_scripts, hauth, hp, hdel]
  · intro h200
    cases hp : parseOid sid with
    | none => simp [manage_scripts, hauth, hp] at h200
    | some oid =>
      by_cases hc : (deleteFirst docs oid).2 = 1
      · have h1 : (manage_scripts Method.DELETE sess (some sid) body
            (Collection.mk docs nid)).coll =
            Collection.mk (deleteFirst docs oid).1 nid := by
          simp [manage_scripts, hauth, hp, hc]
        have hrm := deleteFirst_removes docs oid hnd hc
        have h2 := deleteFirst_of_not_mem (deleteFirst docs oid).1 oid hrm
        rw [h1]
        simp [manage_scripts, hauth, hp, h2]
      · simp [manage_scripts, hauth, hp, hc] at h200

/-- Witness for C4: a malformed id is rejected, a fresh-store delete of a
well-formed id is a 404, and a delete of a present id succeeds once and
then yields 404. -/
theorem C4_id_validation_witness :
    manage_scripts Method.DELETE (some true) (some "zz")
      [("title", JVal.str "t"), ("image", JVal.str "i"), ("key", JVal.str "k")]
      (Collection.mk [] 0) = HResult.mk 400 none none (Collection.mk [] 0) ∧
    manage_scripts Method.DELETE (some true) (some "00000000000000000000000a")
      [("title", JVal.str "t"), ("image", JVal.str "i"), ("key", JVal.str "k")]
      (Collection.mk [] 0) = HResult.mk 404 none none (Collection.mk [] 0) ∧
    (manage_scripts Method.DELETE (some true) (some "00000000000000000000000a")
      [("title", JVal.str "t"), ("image", JVal.str "i"), ("key", JVal.str "k")]
      (manage_scripts Method.DELETE (some true) (some "00000000000000000000000a")
        [("title", JVal.str "t"), ("image", JVal.str "i"), ("key", JVal.str "k")]
        (Collection.mk [Doc.mk "00000000000000000000000a" []] 3)).coll).status
      = 404 := by
  have hbad := (C4_id_validation (some true) "zz"
    [("title", JVal.str "t"), ("image", JVal.str "i"), ("key", JVal.str "k")]
    (Collection.mk [] 0) (by decide) (by decide) (by decide)).1 (by decide)
  have hmiss := ((C4_id_validation (some true) "00000000000000000000000a"
    [("title", JVal.str "t"), ("image", JVal.str "i"), ("key", JVal.str "k")]
    (Collection.mk [] 0) (by decide) (by decide) (by decide)).2.1
    "00000000000000000000000a" (by decide) (by decide))
  have htwice := (C4_id_validation (some true) "00000000000000000000000a"
    [("title", JVal.str "t"), ("image", JVal.str "i"), ("key", JVal.str "k")]
    (Collection.mk [Doc.mk "00000000000000000000000a" []] 3) (by decide)
    (by decide) (by decide)).2.2 (by decide)
  exact ⟨hbad.2, hmiss.2, htwice⟩

/-- C7: an authenticated account creation with the four required fields
present stores and returns the default accent color when none is supplied,
and keeps the supplied value unchanged when one is. -/
theorem C7_account_accent_default (sess : Session) (body : JObj) (c : Collection)
    (hauth : check_admin_auth sess = true)
    (hflds : requiredAccountFields.all (fun f => JObj.hasKey body f) = true) :
    (manage_accounts Method.POST sess none body c).status = 201 ∧
    ∃ stored, (manage_accounts Method.POST sess none body c).coll.docs =
        c.docs ++ [stored] ∧
      (manage_accounts Method.POST sess none body c).docOut =
        some (stored.fields ++ [("_id", JVal.str stored.oid)]) ∧
      (JObj.hasKey body "accentColor" = false →
        JObj.get stored.fields "accentColor" = some (JVal.str "#0ea5e9") ∧
        JObj.get (stored.fields ++ [("_id", JVal.str stored.oid)]) "accentColor" =
          some (JVal.str "#0ea5e9")) ∧
      (JObj.hasKey body "accentColor" = true →
        JObj.get stored.fields "accentColor" = JObj.get body "accentColor" ∧
        JObj.get (stored.fields ++ [("_id", JVal.str stored.oid)]) "accentColor" =
          JObj.get body "accentColor") := by
  have hPOST : manage_accounts Method.POST sess none body c =
      HResult.mk 201 none
        (some (accountInsertData body ++ [("_id", JVal.str (genOid c.nextId))]))
        (Collection.mk (c.docs ++ [Doc.mk (genOid c.nextId) (accountInsertData body)])
          (c.nextId + 1)) := by
    simp [manage_accounts, hauth, hflds]
  refine ⟨by rw [hPOST], Doc.mk (genOid c.nextId) (accountInsertData body),
    by rw [hPOST], by rw [hPOST], ?_, ?_⟩
  · intro hacc
    have hins : accountInsertData body =
        body ++ [("accentColor", JVal.str "#0ea5e9")] := by
      unfold accountInsertData
      rw [if_pos (by rw [hacc]; exact Bool.false_ne_true)]
    have hn : JObj.get body "accentColor" = none := by
      have hs := JObj.hasKey_eq_isSome body "accentColor"
      rw [hacc] at hs
      exact Option.not_isSome_iff_eq_none.mp (by rw [← hs]; exact Bool.false_ne_true)
    have hstored : JObj.get (accountInsertData body) "accentColor" =
        some (JVal.str "#0ea5e9") := by
      rw [hins, JObj.get_append, hn]
      decide
    refine ⟨hstored, ?_⟩
    rw [JObj.get_append]
    show ((JObj.get (accountInsertData body) "accentColor").or _) = _
    rw [hstored]
    rfl
  · intro hacc
    have hins : accountInsertData body = body := by
      unfold accountInsertData
      rw [if_neg (by rw [hacc]; simp)]
    refine ⟨by rw [hins], ?_⟩
    rw [JObj.get_append]
    show ((JObj.get (accountInsertData body) "accentColor").or _) = _
    rw [hins]
    have hs : (JObj.get body "accentColor").isSome = true := by
      rw [← JObj.hasKey_eq_isSome]
      exact hacc
    obtain ⟨v, hv⟩ := Option.isSome_iff_exists.mp hs
    rw [hv]
    rfl

/-- Witness for C7: creation without accent color stores the default, and
creation with an explicit color keeps it. -/
theorem C7_account_accent_default_witness :
    (∃ stored, (manage_accounts Method.POST (some true) none
        [("name", JVal.str "n"), ("image", JVal.str "i"),
         ("username", JVal.str "u"), ("password", JVal.str "p")]
        (Collection.mk [] 0)).coll.docs = [] ++ [stored] ∧
      JObj.get stored.fields "accentColor" = some (JVal.str "#0ea5e9")) ∧
    (∃ stored, (manage_accounts Method.POST (some true) none
        [("name", JVal.str "n"), ("image", JVal.str "i"),
         ("username", JVal.str "u"), ("password", JVal.str "p"),
         ("accentColor", JVal.str "#ff0000")]
        (Collection.mk [] 0)).coll.docs = [] ++ [stored] ∧
      JObj.get stored.fields "accentColor" =
        JObj.get [("name", JVal.str "n"), ("image", JVal.str "i"),
         ("username", JVal.str "u"), ("password", JVal.str "p"),
         ("accentColor", JVal.str "#ff0000")] "accentColor") := by
  have h1 := C7_account_accent_default (some true)
    [("name", JVal.str "n"), ("image", JVal.str "i"),
     ("username", JVal.str "u"), ("password", JVal.str "p")]
    (Collection.mk [] 0) (by decide) (by decide)
  have h2 := C7_account_accent_default (some true)
    [("name", JVal.str "n"), ("image", JVal.str "i"),
     ("username", JVal.str "u"), ("password", JVal.str "p"),
     ("accentColor", JVal.str "#ff0000")]
    (Collection.mk [] 0) (by decide) (by decide)
  obtain ⟨-, st1, hd1, -, habs1, -⟩ := h1
  obtain ⟨-, st2, hd2, -, -, hpres2⟩ := h2
  exact ⟨⟨st1, hd1, (habs1 (by decide)).1⟩, ⟨st2, hd2, (hpres2 (by decide)).1⟩⟩

/-- C8: a successful authenticated script update replaces exactly title,
image and key of the first document matching the id, keeps its identifier
and all its other fields, and leaves every other document and the id
generator untouched. -/
theorem C8_update_frame (sess : Session) (sid : String) (body : JObj)
    (pre post : List Doc) (d : Doc) (c : Collection) (oid : String)
    (hauth : check_admin_auth sess = true)
    (hflds : requiredScriptFields.all (fun f => JObj.hasKey body f) = true)
    (hp : parseOid sid = some oid)
    (hdocs : c.docs = pre ++ d :: post)
    (hpre : ∀ d' ∈ pre, d'.oid ≠ oid)
    (hd : d.oid = oid) :
    (manage_scripts Method.PUT sess (some sid) body c).status = 200 ∧
    ∃ d2, (manage_scripts Method.PUT sess (some sid) body c).coll =
        Collection.mk (pre ++ d2 :: post) c.nextId ∧
      d2.oid = d.oid ∧
      JObj.get d2.fields "title" = some (JObj.getV body "title") ∧
      JObj.get d2.fields "image" = some (JObj.getV body "image") ∧
      JObj.get d2.fields "key" = some (JObj.getV body "key") ∧
      ∀ k, k ≠ "title" → k ≠ "image" → k ≠ "key" →
        JObj.get d2.fields k = JObj.get d.fields k := by
  have hupd := updateFirst_decomp pre d post oid (scriptSetList body) hpre hd
  have hPUT : manage_scripts Method.PUT sess (some sid) body c =
      HResult.mk 200 none none
        (Collection.mk (pre ++ applySet d (scriptSetList body) :: post)
          c.nextId) := by
    simp [manage_scripts, hauth, hflds, hp, hdocs, hupd]
  obtain ⟨ht, hi, hk, hfr⟩ := applySet_script_gets d body
  exact ⟨by rw [hPUT], applySet d (scriptSetList body), by rw [hPUT], rfl,
    ht, hi, hk, hfr⟩

/-- Witness for C8: a concrete update rewrites the three fields and keeps
an unrelated field and the identifier. -/
theorem C8_update_frame_witness :
    (manage_scripts Method.PUT (some true) (some "00000000000000000000000a")
      [("title", JVal.str "new"), ("image", JVal.str "img"), ("key", JVal.str "kk")]
      (Collection.mk [Doc.mk "00000000000000000000000a"
        [("title", JVal.str "old"), ("note", JVal.str "keep")]] 7)).status = 200 ∧
    ∃ d2, (manage_scripts Method.PUT (some true) (some "00000000000000000000000a")
      [("title", JVal.str "new"), ("image", JVal.str "img"), ("key", JVal.str "kk")]
      (Collection.mk [Doc.mk "00000000000000000000000a"
        [("title", JVal.str "old"), ("note", JVal.str "keep")]] 7)).coll =
        Collection.mk ([] ++ d2 :: []) 7 ∧
      d2.oid = "00000000000000000000000a" ∧
      JObj.get d2.fields "title" = some (JVal.str "new") ∧
      JObj.get d2.fields "note" = some (JVal.str "keep") := by
  have h := C8_update_frame (some true) "00000000000000000000000a"
    [("title", JVal.str "new"), ("image", JVal.str "img"), ("key", JVal.str "kk")]
    [] [] (Doc.mk "00000000000000000000000a"
      [("title", JVal.str "old"), ("note", JVal.str "keep")])
    (Collection.mk [Doc.mk "00000000000000000000000a"
      [("title", JVal.str "old"), ("note", JVal.str "keep")]] 7)
    "00000000000000000000000a" (by decide) (by decide) (by decide) rfl
    (by decide) rfl
  obtain ⟨h200, d2, hcoll, hoid, ht, hi, hk, hfr⟩ := h
  refine ⟨h200, d2, hcoll, hoid, by rw [ht]; rfl, ?_⟩
  rw [hfr "note" (by decide) (by decide) (by decide)]
  decide

/-- C9: an authenticated upload of a named file yields a data URL built
from the lowercased extension after the last dot of the filename (or png
when the filename has no dot) followed by the base64 encoding of the
bytes. -/
theorem C9_upload_extension (sess : Session) (filename : String)
    (bytes : List Nat) (hauth : check_admin_auth sess = true)
    (hne : ¬ filename = "") :
    (filename.data.contains '.' = true →
      upload_image sess (some (filename, bytes)) = UploadResult.mk 200
        (some ("data:image/" ++
          String.mk (((filename.data.reverse.takeWhile (fun c => c ≠ '.')).reverse).map
            Char.toLower) ++ ";base64," ++ b64encode bytes))) ∧
    (filename.data.contains '.' = false →
      upload_image sess (some (filename, bytes)) = UploadResult.mk 200
        (some ("data:image/" ++ "png" ++ ";base64," ++ b64encode bytes))) := by
  constructor
  · intro hdot
    have hm : '.' ∈ filename.data := by simpa using hdot
    simp [upload_image, hauth, hne, fileExtension, hm]
  · intro hdot
    have hm : '.' ∉ filename.data := by simpa using hdot
    simp [upload_image, hauth, hne, fileExtension, hm]

/-- Witness for C9: uploading photo.JPG yields the jpg data URL prefix. -/
theorem C9_upload_extension_witness :
    upload_image (some true) (some ("photo.JPG", [77, 97, 110])) =
      UploadResult.mk 200 (some "data:image/jpg;base64,TWFu") := by
  have h := (C9_upload_extension (some true) "photo.JPG" [77, 97, 110]
    (by decide) (by decide)).1 (by decide)
  rw [h]
  rfl
